import Mathlib

/-!
# Adverts API (olx-women-workshop-backend): a shallow embedding

The Go program is three HTTP handlers (`handlers.List`, `handlers.Create`,
`handlers.Delete`) over a record store (`models.List`, `models.Create`,
`models.Delete`) that issues SQL statements on one connection, plus a static
file route registered in `main`.

Conventions of the embedding.

* A Go `error` is represented by the text of its `Error()`; `none` is `nil`.
* A Go `string` is a Lean `String`; where the code works on bytes the UTF-8
  bytes of the string are used.
* Everything outside the process (the MySQL table, the local file system, the
  results of library calls that depend on them) is explicit: `World` is the
  state that persists between requests, `Outcomes` says what the outside did
  during one request.
* The `ResponseWriter` records the `Response` values handed to
  `json.NewEncoder(w).Encode`, in order, and the status line.
-/

/-! ## Data model (`models/advert.go`, `handlers/advert.go`) -/

/-- A `float64`, given by its IEEE-754 bit pattern. The zero value is `+0.0`,
bit pattern `0`. -/
structure Float64 where
  bits : Nat
  deriving DecidableEq, Repr

/-- The record type `models.Advert`. -/
structure Advert where
  Id : Int := 0
  Title : String := ""
  Description : String := ""
  Price : Float64 := ⟨0⟩
  Image : String := ""
  deriving DecidableEq, Repr

/-- The values that `Response.Data` (an `interface{}`) holds in this program:
the nil interface, a string, or a `[]Advert`. -/
inductive Interface where
  | nil
  | string (s : String)
  | adverts (l : List Advert)
  deriving DecidableEq, Repr

/-- The envelope `handlers.Response`. -/
structure Response where
  Err : String := ""
  Data : Interface := Interface.nil
  deriving DecidableEq, Repr

/-- The members of the JSON object that `encoding/json` writes for a
`Response`: both fields are tagged `omitempty`, so `error` is left out when the
string is empty and `data` when the interface is nil. -/
def Response.members (res : Response) : List (String × Interface) :=
  (if res.Err = "" then [] else [("error", Interface.string res.Err)]) ++
  (if res.Data = Interface.nil then [] else [("data", res.Data)])

/-! ## `strconv.Atoi` (Go standard library) -/

namespace strconv

/-- The two causes of a `*strconv.NumError`. -/
inductive NumError where
  | ErrSyntax
  | ErrRange
  deriving DecidableEq, Repr

/-- The size of `int` in bits (`strconv.IntSize`) on a 64-bit platform. -/
def IntSize : Nat := 64

/-- The UTF-8 bytes of a string. -/
def bytes (s : String) : List Nat := s.toUTF8.data.toList.map (fun b => b.toNat)

/-- Lower-casing of a byte as `strconv` does it: `c | ('x' - 'X')`. -/
def lower (c : Nat) : Nat := c ||| 32

/-- The digit value `ParseUint` gives a byte: `c - '0'` for a decimal digit,
`lower(c) - 'a' + 10` for a letter, and `none` for the default branch of the
switch (the underscore is accepted only for base 0, which `Atoi` never uses). -/
def digit (c : Nat) : Option Nat :=
  if 48 ≤ c ∧ c ≤ 57 then some (c - 48)
  else if 97 ≤ lower c ∧ lower c ≤ 122 then some (lower c - 97 + 10)
  else none

/-- The loop of `ParseUint` for base 10 over the remaining bytes, `n` being the
value accumulated so far in a `uint64`. -/
def parseUintLoop (cutoff maxVal : Nat) : List Nat → Nat → Nat × Option NumError
  | [], n => (n, none)
  | c :: cs, n =>
    match digit c with
    | none => (0, some NumError.ErrSyntax)
    | some d =>
      if d ≥ 10 then (0, some NumError.ErrSyntax)
      else if n ≥ cutoff then (maxVal, some NumError.ErrRange)
      else
        let n10 := (n * 10) % 2 ^ 64
        let n1 := (n10 + d) % 2 ^ 64
        if n1 < n10 ∨ n1 > maxVal then (maxVal, some NumError.ErrRange)
        else parseUintLoop cutoff maxVal cs n1

/-- The call `ParseUint(s, 10, 0)`: the value and the error. -/
def ParseUint (s : List Nat) : Nat × Option NumError :=
  if s = [] then (0, some NumError.ErrSyntax)
  else parseUintLoop ((2 ^ 64 - 1) / 10 + 1) (2 ^ IntSize - 1) s 0

/-- The call `ParseInt(s, 10, 0)`: a leading sign is picked off, the rest goes
through `ParseUint`; a syntax error returns 0, a value out of range returns the
largest-magnitude integer of that sign together with `ErrRange`. -/
def ParseInt (s : List Nat) : Int × Option NumError :=
  if s = [] then (0, some NumError.ErrSyntax)
  else
    let neg : Bool := s.head? = some 45
    let rest : List Nat := if s.head? = some 43 ∨ s.head? = some 45 then s.tail else s
    let un := (ParseUint rest).1
    let err := (ParseUint rest).2
    if err = some NumError.ErrSyntax then (0, some NumError.ErrSyntax)
    else
      let cutoff : Nat := 2 ^ (IntSize - 1)
      if neg = false ∧ un ≥ cutoff then (((cutoff - 1 : Nat) : Int), some NumError.ErrRange)
      else if neg = true ∧ un > cutoff then (-(cutoff : Int), some NumError.ErrRange)
      else (if neg then -(un : Int) else (un : Int), none)

/-- The loop of the fast path of `Atoi`: `ch -= '0'; if ch > 9` is a syntax
error (the subtraction is on a byte, so a byte below `'0'` wraps above 9). -/
def atoiLoop : List Nat → Int → Option Int
  | [], n => some n
  | ch :: cs, n =>
    let d := (ch + 256 - 48) % 256
    if d > 9 then none else atoiLoop cs (n * 10 + d)

/-- The function `strconv.Atoi`: the value and the error it returns. -/
def Atoi (s : String) : Int × Option NumError :=
  let s0 := bytes s
  let sLen := s0.length
  if 0 < sLen ∧ sLen < 19 then
    let signed : Bool := s0.head? = some 45 ∨ s0.head? = some 43
    let s1 := if signed then s0.tail else s0
    if signed = true ∧ s1.length < 1 then (0, some NumError.ErrSyntax)
    else
      match atoiLoop s1 0 with
      | none => (0, some NumError.ErrSyntax)
      | some n => (if s0.head? = some 45 then -n else n, none)
  else ParseInt s0

end strconv

/-! ## `strings`, `path`, `path/filepath`, `io/ioutil` (Go standard library) -/

namespace strings

/-- The function `strings.HasPrefix`. -/
def HasPrefix (s pre : String) : Bool := pre.data.isPrefixOf s.data

/-- The function `strings.TrimPrefix`. -/
def TrimPrefix (s pre : String) : String :=
  if HasPrefix s pre then ⟨s.data.drop pre.data.length⟩ else s

end strings

namespace path

/-- The elements of a path between its slashes (`strings.Split(p, "/")`). -/
def splitSlash : List Char → List (List Char)
  | [] => [[]]
  | c :: cs =>
    if c = '/' then [] :: splitSlash cs
    else
      match splitSlash cs with
      | [] => [[c]]
      | x :: xs => (c :: x) :: xs

/-- The rules of `path.Clean` on the elements of a path, `out` being the
elements kept so far, the latest first: empty elements and `.` are dropped, a
`..` removes the element before it, is dropped at the root of a rooted path and
is kept at the start of a relative one. -/
def cleanElems (rooted : Bool) : List (List Char) → List (List Char) → List (List Char)
  | [], out => out.reverse
  | e :: es, out =>
    if e = [] ∨ e = ['.'] then cleanElems rooted es out
    else if e = ['.', '.'] then
      match out with
      | top :: below =>
        if top = ['.', '.'] then cleanElems rooted es (e :: out)
        else cleanElems rooted es below
      | [] => if rooted then cleanElems rooted es [] else cleanElems rooted es [e]
    else cleanElems rooted es (e :: out)

/-- The function `path.Clean` (and `filepath.Clean` where the separator is the
slash): the shortest path name equivalent to `p`; the empty result is `.`. -/
def Clean (p : String) : String :=
  if p = "" then "."
  else
    let rooted : Bool := p.data.head? = some '/'
    let elems := cleanElems rooted (splitSlash p.data) []
    let out : List Char := (if rooted then ['/'] else []) ++ List.intercalate ['/'] elems
    if out = [] then "." else ⟨out⟩

/-- The function `filepath.Join` where the separator is the slash: the
non-empty elements joined by slashes, then cleaned; no element gives the empty
string. -/
def Join (elem : List String) : String :=
  let parts := elem.filter (fun e => e ≠ "")
  if parts = [] then "" else Clean (String.intercalate "/" parts)

end path

namespace ioutil

/-- The split of a pattern at its last `*` (`strings.LastIndexByte`), `none`
when it has no star. -/
def splitLastStar : List Char → Option (List Char × List Char)
  | [] => none
  | c :: cs =>
    match splitLastStar cs with
    | some (a, b) => some (c :: a, b)
    | none => if c = '*' then some ([], cs) else none

/-- The name `ioutil.TempFile(dir, pattern)` gives the file it creates, `rnd`
being the random string it draws: the last `*` of the pattern is replaced by
`rnd` (a pattern without a star gets `rnd` appended) and the result is joined
to `dir`. A pattern with a path separator is an error. -/
def tempName (dir pattern rnd : String) : Except String String :=
  if '/' ∈ pattern.data then Except.error "pattern contains path separator"
  else
    match splitLastStar pattern.data with
    | some (pre, suf) => Except.ok (path.Join [dir, (⟨pre⟩ : String) ++ rnd ++ ⟨suf⟩])
    | none => Except.ok (path.Join [dir, pattern ++ rnd])

end ioutil

/-! ## The outside of the process -/

/-- The SQL statements the record store issues, with their arguments. -/
inductive Stmt where
  | selectAll
  | insert (title description : String) (price : Float64) (image_path : String)
  | delete (id : Int)
  deriving DecidableEq, Repr

/-- The state that persists between requests: the rows of table `advert` in
the order they were inserted, its AUTO_INCREMENT counter, the local files
(name and content), and the statements sent on the connection, oldest first. -/
structure World where
  rows : List Advert := []
  nextId : Int := 1
  files : List (String × String) := []
  stmts : List Stmt := []
  deriving DecidableEq, Repr

/-- What the outside does during one request: the random string `TempFile`
draws and whether creating, reading or writing the upload fails; whether the
`Exec` of the request fails; whether the `Query` fails, or the `Scan` of the
row at some index of the result. -/
structure Outcomes where
  rnd : String := "1"
  tempFileErr : Option String := none
  readErr : Option String := none
  writeErr : Option String := none
  execErr : Option String := none
  queryErr : Option String := none
  scanErr : Option (Nat × String) := none
  deriving DecidableEq, Repr

/-- The process environment and the library function whose result the program
only passes on: `os.Getenv`, and the value and the error that
`strconv.ParseFloat(s, 64)` returns for a non-empty string. -/
structure Runtime where
  Getenv : String → String
  parseFloat64 : String → Float64 × Option strconv.NumError

/-- The call `strconv.ParseFloat(s, 64)`: the empty string is a syntax error,
returned with value 0; the result for any other string is the library's. -/
def strconv.ParseFloat (rt : Runtime) (s : String) : Float64 × Option strconv.NumError :=
  if s = "" then (⟨0⟩, some strconv.NumError.ErrSyntax) else rt.parseFloat64 s

/-- The parts of an `*http.Request` the handlers read: the URL path, the form
values, the route variables of the router (`mux.Vars`), the files of the
multipart form, and the error of parsing the multipart body, if any. -/
structure Request where
  path : String := "/"
  form : List (String × String) := []
  vars : List (String × String) := []
  formFiles : List (String × String) := []
  multipartErr : Option String := none
  deriving DecidableEq, Repr

/-- The method `r.FormValue(key)`: the first value of the key, or the empty
string. -/
def Request.FormValue (r : Request) (key : String) : String :=
  ((r.form.find? (fun kv => kv.1 = key)).map (fun kv => kv.2)).getD ""

/-- The lookup `mux.Vars(r)[key]`: the empty string when the key is absent. -/
def Request.Vars (r : Request) (key : String) : String :=
  ((r.vars.find? (fun kv => kv.1 = key)).map (fun kv => kv.2)).getD ""

/-- The method `r.FormFile(key)`: the content of the first file of the key;
the error of parsing the multipart body, or `http.ErrMissingFile` when the form
has no such file. -/
def Request.FormFile (r : Request) (key : String) : Except String String :=
  match r.multipartErr with
  | some e => Except.error e
  | none =>
    match r.formFiles.find? (fun kv => kv.1 = key) with
    | some kv => Except.ok kv.2
    | none => Except.error "http: no such file"

/-- An `http.ResponseWriter`: the header map, the status of the response once
it is fixed, and the envelopes encoded into the body, oldest first. -/
structure ResponseWriter where
  header : List (String × String) := []
  status : Option Nat := none
  body : List Response := []
  deriving DecidableEq, Repr

/-- The call `w.Header().Set(key, value)`. -/
def ResponseWriter.HeaderSet (w : ResponseWriter) (key value : String) : ResponseWriter :=
  { w with header := (key, value) :: w.header.filter (fun kv => kv.1 ≠ key) }

/-- The call `w.WriteHeader(code)`: the first status written stays. -/
def ResponseWriter.WriteHeader (w : ResponseWriter) (code : Nat) : ResponseWriter :=
  match w.status with
  | none => { w with status := some code }
  | some _ => w

/-- The call `json.NewEncoder(w).Encode(res)`: a `Write` of the encoded
envelope, which first writes the header with status 200 when no status was
written before. The body keeps the `Response` value itself; its JSON members
are `Response.members`. -/
def ResponseWriter.Encode (w : ResponseWriter) (res : Response) : ResponseWriter :=
  let w1 := w.WriteHeader 200
  { w1 with body := w1.body ++ [res] }

/-- The status the client receives when the handler has returned: the one
written, or 200 when the handler wrote none. -/
def ResponseWriter.finalStatus (w : ResponseWriter) : Nat := w.status.getD 200

/-- Creating or overwriting a local file. -/
def World.writeFile (σ : World) (name content : String) : World :=
  { σ with files := (name, content) :: σ.files.filter (fun f => f.1 ≠ name) }

/-- The content of a local file, `none` when there is no such file. -/
def World.readFile (σ : World) (name : String) : Option String :=
  (σ.files.find? (fun f => f.1 = name)).map (fun f => f.2)

/-- The call `ioutil.TempFile(dir, pattern)`: the name of the created file
(empty at first), or an error. -/
def ioutil.TempFile (o : Outcomes) (dir pattern : String) (σ : World) :
    Except String String × World :=
  match o.tempFileErr with
  | some e => (Except.error e, σ)
  | none =>
    match ioutil.tempName dir pattern o.rnd with
    | Except.error e => (Except.error e, σ)
    | Except.ok name => (Except.ok name, σ.writeFile name "")

/-! ## The connection (`database/connection.go`) and the table -/

/-- The order of `ORDER BY id DESC`. -/
def idDesc (a b : Advert) : Prop := b.Id ≤ a.Id

instance idDescDecidable : DecidableRel idDesc :=
  fun a b => inferInstanceAs (Decidable (b.Id ≤ a.Id))

/-- The call `database.GetConn().Exec(stmt, args...)`: the statement is sent;
when the store reports an error the table is as before, otherwise an insert
adds a row whose id is the AUTO_INCREMENT counter and a delete removes the rows
with the given id (none, when no row has it). -/
def database.Exec (o : Outcomes) (stmt : Stmt) (σ : World) : Option String × World :=
  let σ1 : World := { σ with stmts := σ.stmts ++ [stmt] }
  match o.execErr with
  | some e => (some e, σ1)
  | none =>
    match stmt with
    | Stmt.insert t d p i =>
      (none, { σ1 with
        rows := σ1.rows ++ [{ Id := σ1.nextId, Title := t, Description := d, Price := p, Image := i }],
        nextId := σ1.nextId + 1 })
    | Stmt.delete id => (none, { σ1 with rows := σ1.rows.filter (fun a => a.Id ≠ id) })
    | Stmt.selectAll => (none, σ1)

/-- The call `database.GetConn().Query` of the select statement: an error, or
the rows of the table by descending id. -/
def database.Query (o : Outcomes) (σ : World) : Except String (List Advert) × World :=
  let σ1 : World := { σ with stmts := σ.stmts ++ [Stmt.selectAll] }
  match o.queryErr with
  | some e => (Except.error e, σ1)
  | none => (Except.ok (σ1.rows.insertionSort idDesc), σ1)

/-! ## The record store (`models/advert.go`) -/

/-- The function `models.Create`: one insert of title, description, price and
image path; the advert comes back unchanged, with the error of `Exec`. -/
def models.Create (o : Outcomes) (advert : Advert) (σ : World) :
    (Advert × Option String) × World :=
  let r := database.Exec o
    (Stmt.insert advert.Title advert.Description advert.Price advert.Image) σ
  ((advert, r.1), r.2)

/-- The function `models.Delete`: one delete by id; the error of `Exec`. -/
def models.Delete (o : Outcomes) (advertID : Int) (σ : World) : Option String × World :=
  database.Exec o (Stmt.delete advertID) σ

/-- The loop `for statement.Next()` of `models.List` over the rows still to
come, `i` being the index of the next row and `adverts` the slice built so far:
a failing `Scan` returns the slice as it is with the error. -/
def models.scanLoop (scanErr : Option (Nat × String)) :
    List Advert → Nat → List Advert → List Advert × Option String
  | [], _, adverts => (adverts, none)
  | row :: rest, i, adverts =>
    match scanErr with
    | some (k, e) =>
      if i = k then (adverts, some e)
      else models.scanLoop scanErr rest (i + 1) (adverts ++ [row])
    | none => models.scanLoop scanErr rest (i + 1) (adverts ++ [row])

/-- The function `models.List`: the select ordered by id descending; a failing
query returns the nil slice with the error. -/
def models.List (o : Outcomes) (σ : World) : (List Advert × Option String) × World :=
  let q := database.Query o σ
  match q.1 with
  | Except.error e => (([], some e), q.2)
  | Except.ok rows => (models.scanLoop o.scanErr rows 0 [], q.2)

/-! ## The handlers (`handlers/advert.go`) -/

/-- The function `getFormFile`: the file of form field `ad_image` is copied
into a new file `upload-*.png` of directory `static/images`; the result is the
name of that file (`tempFile.Name()`), or the empty string and the error of the
step that failed. -/
def handlers.getFormFile (o : Outcomes) (r : Request) (σ : World) :
    (String × Option String) × World :=
  match r.FormFile "ad_image" with
  | Except.error e => (("", some e), σ)
  | Except.ok file =>
    let t := ioutil.TempFile o "static/images" "upload-*.png" σ
    match t.1 with
    | Except.error e => (("", some e), t.2)
    | Except.ok name =>
      match o.readErr with
      | some e => (("", some e), t.2)
      | none =>
        match o.writeErr with
        | some e => (("", some e), t.2)
        | none => ((name, none), t.2.writeFile name file)

/-- The handler `handlers.Create`. -/
def handlers.Create (rt : Runtime) (o : Outcomes) (r : Request) (w : ResponseWriter)
    (σ : World) : ResponseWriter × World :=
  let res : Response := {}
  let newAdvert : Advert :=
    { Title := r.FormValue "title", Description := r.FormValue "description" }
  let pf := strconv.ParseFloat rt (r.FormValue "price")
  let newAdvert : Advert :=
    if pf.2 = none then { newAdvert with Price := pf.1 } else newAdvert
  let up := handlers.getFormFile o r σ
  let newAdvert : Advert := { newAdvert with Image := up.1.1 }
  let res : Response :=
    match up.1.2 with
    | some e => { res with Err := e }
    | none => res
  let w : ResponseWriter :=
    match up.1.2 with
    | some _ => (w.HeaderSet "Content-Type" "application/json").Encode res
    | none => w
  let cr := models.Create o newAdvert up.2
  let res : Response :=
    match cr.1.2 with
    | some e => { res with Err := e }
    | none => { res with Data := Interface.string "created" }
  ((w.HeaderSet "Content-Type" "application/json").Encode res, cr.2)

/-- The handler `handlers.Delete`. -/
def handlers.Delete (o : Outcomes) (r : Request) (w : ResponseWriter) (σ : World) :
    ResponseWriter × World :=
  let id := (strconv.Atoi (r.Vars "id")).1
  let d := models.Delete o id σ
  let res : Response := {}
  let res : Response :=
    match d.1 with
    | some e => { res with Err := e }
    | none => { res with Data := Interface.string "deleted" }
  ((w.HeaderSet "Content-Type" "application/json").Encode res, d.2)

/-- The handler `handlers.List`. -/
def handlers.List (rt : Runtime) (o : Outcomes) (w : ResponseWriter) (σ : World) :
    ResponseWriter × World :=
  let res : Response := {}
  let l := models.List o σ
  let adverts := l.1.1.map
    (fun a => { a with Image := rt.Getenv "IMAGE_PATH" ++ "/" ++ a.Image })
  let res : Response :=
    match l.1.2 with
    | some e => { res with Err := e }
    | none => { res with Data := Interface.adverts adverts }
  ((w.HeaderSet "Content-Type" "application/json").Encode res, l.2)

/-! ## The static file route (`main.go`) -/

/-- The wrapper `http.StripPrefix(pre, h)`: the path handed to `h`, or `none`
when the request path does not start with `pre` (the reply is then 404). -/
def http.StripPrefix (pre urlPath : String) : Option String :=
  if pre = "" then some urlPath
  else
    let p := strings.TrimPrefix urlPath pre
    if p.data.length < urlPath.data.length then some p else none

/-- The method `http.Dir(dir).Open(name)`: the name of the local file that is
opened, `filepath.Join(dir, path.Clean("/" + name))`. -/
def http.DirOpen (dir name : String) : String :=
  path.Join [if dir = "" then "." else dir, path.Clean ("/" ++ name)]

/-- The handler `http.FileServer(http.Dir(dir))`: the name of the local file it
opens for a request path; a path without a leading slash is given one. -/
def http.FileServer (dir urlPath : String) : String :=
  let upath := if strings.HasPrefix urlPath "/" then urlPath else "/" ++ urlPath
  http.DirOpen dir (path.Clean upath)

/-- The function `cleanPath` of the router (gorilla/mux): a request whose path
differs from its cleaned form is answered by a redirect and reaches no route. -/
def mux.cleanPath (p : String) : String :=
  if p = "" then "/"
  else
    let p1 := if p.data.head? = some '/' then p else "/" ++ p
    let np := path.Clean p1
    if p1.data.getLast? = some '/' ∧ np ≠ "/" then np ++ "/" else np

/-- The route `router.PathPrefix("/static/").Handler(http.StripPrefix("/",
http.FileServer(http.Dir("./static/"))))` of `main`: the name of the local file
opened for a request path, `none` when the router redirects the request or the
route does not match it. -/
def main.staticRoute (urlPath : String) : Option String :=
  if mux.cleanPath urlPath ≠ urlPath then none
  else if strings.HasPrefix urlPath "/static/" then
    (http.StripPrefix "/" urlPath).map (http.FileServer "./static/")
  else none

/-- The content the static route serves for a request path, `none` when the
route does not match or there is no such local file (the reply is then 404). -/
def main.serveStatic (σ : World) (urlPath : String) : Option String :=
  (main.staticRoute urlPath).bind σ.readFile

/-! ## Concrete inputs used to evaluate the definitions -/

/-- A process environment with `IMAGE_PATH=http://localhost:4040`, and the
values of `strconv.ParseFloat` on the few strings used below: `49.99` and `0`
parse, `1e999` is out of range, every other string is taken as a syntax error
(as `abc` is). -/
def sampleRuntime : Runtime where
  Getenv := fun k => if k = "IMAGE_PATH" then "http://localhost:4040" else ""
  parseFloat64 := fun s =>
    if s = "49.99" then (⟨0x4048FEB851EB851F⟩, none)
    else if s = "0" then (⟨0⟩, none)
    else if s = "1e999" then (⟨0x7FF0000000000000⟩, some strconv.NumError.ErrRange)
    else (⟨0⟩, some strconv.NumError.ErrSyntax)

/-- The create request of the example: title `Chair`, description `Wooden`,
price `49.99`, and a file in field `ad_image`. -/
def chairRequest : Request where
  path := "/api/ads"
  form := [("title", "Chair"), ("description", "Wooden"), ("price", "49.99")]
  formFiles := [("ad_image", "PNG")]

/-- The same request without the file: `FormFile` fails with
`http.ErrMissingFile`. -/
def chairRequestNoFile : Request := { chairRequest with formFiles := [] }

/-! ## Sequences of requests -/

/-- A sequence of calls of `models.Create`, each with the outcome of its own
`Exec`, from a given state. -/
def createAll : List (Outcomes × Advert) → World → World
  | [], σ => σ
  | c :: cs, σ => createAll cs (models.Create c.1 c.2 σ).2

/-- The adverts of a list with consecutive ids from `n` on, in the order of the
list: the rows that successive inserts add to the table. -/
def assignIds : Int → List Advert → List Advert
  | _, [] => []
  | n, a :: as => { a with Id := n } :: assignIds (n + 1) as

/-- The image value `handlers.List` puts in an advert. -/
def listedImage (rt : Runtime) (a : Advert) : Advert :=
  { a with Image := rt.Getenv "IMAGE_PATH" ++ "/" ++ a.Image }

/-! ## Lemmas on the upload step and the store -/

theorem getFormFile_table (o : Outcomes) (r : Request) (σ : World) :
    (handlers.getFormFile o r σ).2.rows = σ.rows ∧
    (handlers.getFormFile o r σ).2.nextId = σ.nextId ∧
    (handlers.getFormFile o r σ).2.stmts = σ.stmts := by
  unfold handlers.getFormFile ioutil.TempFile World.writeFile
  cases r.FormFile "ad_image" <;> cases o.tempFileErr <;>
    cases ioutil.tempName "static/images" "upload-*.png" o.rnd <;>
    cases o.readErr <;> cases o.writeErr <;> simp

theorem getFormFile_failed_name (o : Outcomes) (r : Request) (σ : World) (e : String)
    (h : (handlers.getFormFile o r σ).1.2 = some e) :
    (handlers.getFormFile o r σ).1.1 = "" := by
  revert h
  unfold handlers.getFormFile ioutil.TempFile
  cases r.FormFile "ad_image" <;> cases o.tempFileErr <;>
    cases ioutil.tempName "static/images" "upload-*.png" o.rnd <;>
    cases o.readErr <;> cases o.writeErr <;> simp

theorem encode_body (w : ResponseWriter) (res : Response) :
    (w.Encode res).body = w.body ++ [res] := by
  unfold ResponseWriter.Encode ResponseWriter.WriteHeader
  cases w.status <;> simp

theorem encode_status (w : ResponseWriter) (res : Response) :
    (w.Encode res).status = some (w.status.getD 200) := by
  unfold ResponseWriter.Encode ResponseWriter.WriteHeader
  cases h : w.status <;> simp [h]

theorem headerSet_body (w : ResponseWriter) (k v : String) :
    (w.HeaderSet k v).body = w.body := rfl

theorem headerSet_status (w : ResponseWriter) (k v : String) :
    (w.HeaderSet k v).status = w.status := rfl

/-! ## The claims -/

/-- C1, evaluated where it fails: a create request without the `ad_image` file
whose insert succeeds is answered by two envelopes, and the second one carries
both the upload error and the data `created`. -/
theorem C1_create_second_envelope_has_error_and_data :
    (handlers.Create sampleRuntime {} chairRequestNoFile {} {}).1.body =
      [{ Err := "http: no such file" },
       { Err := "http: no such file", Data := Interface.string "created" }] ∧
    (handlers.Create sampleRuntime {} chairRequestNoFile {} {}).1.body.map Response.members =
      [[("error", Interface.string "http: no such file")],
       [("error", Interface.string "http: no such file"),
        ("data", Interface.string "created")]] := by
  decide

/-- C9: whatever the request, the store and the upload do, each of the three
handlers leaves as status of the response the one 200 that the first write of
the body sets: a status already written stays, and no other code is written. -/
theorem C9_handlers_status_200 (rt : Runtime) (o : Outcomes) (r : Request)
    (w : ResponseWriter) (σ : World) :
    (handlers.List rt o w σ).1.status = some (w.status.getD 200) ∧
    (handlers.Create rt o r w σ).1.status = some (w.status.getD 200) ∧
    (handlers.Delete o r w σ).1.status = some (w.status.getD 200) ∧
    (handlers.List rt o {} σ).1.finalStatus = 200 ∧
    (handlers.Create rt o r {} σ).1.finalStatus = 200 ∧
    (handlers.Delete o r {} σ).1.finalStatus = 200 := by
  have hL : ∀ w : ResponseWriter,
      (handlers.List rt o w σ).1.status = some (w.status.getD 200) := by
    intro w
    simp [handlers.List, encode_status, headerSet_status]
  have hC : ∀ w : ResponseWriter,
      (handlers.Create rt o r w σ).1.status = some (w.status.getD 200) := by
    intro w
    simp only [handlers.Create, encode_status, headerSet_status]
    cases (handlers.getFormFile o r σ).1.2 <;> simp [encode_status, headerSet_status]
  have hD : ∀ w : ResponseWriter,
      (handlers.Delete o r w σ).1.status = some (w.status.getD 200) := by
    intro w
    simp [handlers.Delete, encode_status, headerSet_status]
  refine ⟨hL w, hC w, hD w, ?_, ?_, ?_⟩
  · simp [ResponseWriter.finalStatus, hL]
  · simp [ResponseWriter.finalStatus, hC]
  · simp [ResponseWriter.finalStatus, hD]

/-- C10: when the upload step of a create request fails with error `e`, the
handler encodes the envelope with `e`, still sends exactly one insert, with the
parsed title, description and price and the empty image path, and encodes a
second envelope (the error of the insert, or `e` together with `created`): two
envelopes in all. When the upload succeeds it encodes exactly one envelope. -/
theorem C10_create_upload_failure_falls_through (rt : Runtime) (o : Outcomes)
    (r : Request) (w : ResponseWriter) (σ : World) :
    (∀ e, (handlers.getFormFile o r σ).1.2 = some e →
      (handlers.Create rt o r w σ).1.body = w.body ++
        [{ Err := e },
         (match o.execErr with
          | some e2 => { Err := e2 }
          | none => { Err := e, Data := Interface.string "created" })] ∧
      (handlers.Create rt o r w σ).2.stmts = σ.stmts ++
        [Stmt.insert (r.FormValue "title") (r.FormValue "description")
          (if (strconv.ParseFloat rt (r.FormValue "price")).2 = none
            then (strconv.ParseFloat rt (r.FormValue "price")).1 else ⟨0⟩) ""]) ∧
    ((handlers.getFormFile o r σ).1.2 = none →
      ∃ res : Response, (handlers.Create rt o r w σ).1.body = w.body ++ [res]) := by
  obtain ⟨-, -, hs⟩ := getFormFile_table o r σ
  constructor
  · intro e he
    have hn := getFormFile_failed_name o r σ e he
    constructor
    · simp only [handlers.Create, models.Create, database.Exec, he, encode_body,
        headerSet_body]
      cases o.execErr <;> simp
    · simp only [handlers.Create, models.Create, database.Exec, hn, hs]
      cases o.execErr <;> split_ifs <;> simp
  · intro he
    simp only [handlers.Create, he, encode_body, headerSet_body]
    exact ⟨_, rfl⟩

/-- C10 at the example request, without and with its file. -/
theorem C10_create_upload_failure_falls_through_witness :
    (handlers.getFormFile {} chairRequestNoFile {}).1.2 = some "http: no such file" ∧
    (handlers.Create sampleRuntime {} chairRequestNoFile {} {}).1.body.length = 2 ∧
    (handlers.Create sampleRuntime {} chairRequestNoFile {} {}).2.stmts =
      [Stmt.insert "Chair" "Wooden" ⟨0x4048FEB851EB851F⟩ ""] ∧
    (handlers.getFormFile {} chairRequest {}).1.2 = none ∧
    ∃ res : Response, (handlers.Create sampleRuntime {} chairRequest {} {}).1.body = [res] :=
  have h := C10_create_upload_failure_falls_through sampleRuntime {} chairRequestNoFile {} {}
  have h2 := C10_create_upload_failure_falls_through sampleRuntime {} chairRequest {} {}
  ⟨by decide, by rw [(h.1 "http: no such file" (by decide)).1]; rfl,
    by rw [(h.1 "http: no such file" (by decide)).2]; decide, by decide, h2.2 (by decide)⟩

/-- C5: `strconv.ParseFloat` returns an error for the empty string, and when
it returns an error for the `price` form value the insert that
`handlers.Create` sends carries price 0.0. The envelopes are determined by the
upload and the insert alone (the parse adds no error to any of them), and with
a successful upload and insert the one envelope is `{"data":"created"}`. -/
theorem C5_unparsable_price_stored_as_zero (rt : Runtime) (o : Outcomes) (r : Request)
    (w : ResponseWriter) (σ : World) :
    (strconv.ParseFloat rt "").2 ≠ none ∧
    ((strconv.ParseFloat rt (r.FormValue "price")).2 ≠ none →
      (handlers.Create rt o r w σ).2.stmts = σ.stmts ++
        [Stmt.insert (r.FormValue "title") (r.FormValue "description") ⟨0⟩
          (handlers.getFormFile o r σ).1.1] ∧
      (handlers.Create rt o r w σ).1.body = w.body ++
        (match (handlers.getFormFile o r σ).1.2 with
         | some e => [{ Err := e }]
         | none => []) ++
        [match o.execErr with
         | some e2 => { Err := e2 }
         | none => { Err := ((handlers.getFormFile o r σ).1.2).getD "",
                     Data := Interface.string "created" }] ∧
      ((handlers.getFormFile o r σ).1.2 = none → o.execErr = none →
        (handlers.Create rt o r w σ).1.body =
          w.body ++ [{ Data := Interface.string "created" }] ∧
        (handlers.Create rt o r w σ).1.body.map Response.members =
          w.body.map Response.members ++ [[("data", Interface.string "created")]])) := by
  obtain ⟨-, -, hs⟩ := getFormFile_table o r σ
  refine ⟨by simp [strconv.ParseFloat], fun h => ⟨?_, ?_, ?_⟩⟩
  · simp only [handlers.Create, models.Create, database.Exec, hs, if_neg h]
    cases o.execErr <;> simp
  · simp only [handlers.Create, models.Create, database.Exec, encode_body, headerSet_body]
    cases (handlers.getFormFile o r σ).1.2 <;> cases o.execErr <;>
      simp [encode_body, headerSet_body]
  · intro hu he
    have hb : (handlers.Create rt o r w σ).1.body =
        w.body ++ [{ Data := Interface.string "created" }] := by
      simp [handlers.Create, models.Create, database.Exec, hu, he, encode_body,
        headerSet_body]
    refine ⟨hb, ?_⟩
    rw [hb]
    simp [Response.members]

/-- C5 at a request that has no `price` form value. -/
theorem C5_unparsable_price_stored_as_zero_witness :
    (strconv.ParseFloat sampleRuntime
      (Request.FormValue { chairRequest with form := [("title", "Chair")] } "price")).2 ≠ none ∧
    (handlers.Create sampleRuntime {} { chairRequest with form := [("title", "Chair")] } {} {}).2.stmts =
      [Stmt.insert "Chair" "" ⟨0⟩ "static/images/upload-1.png"] ∧
    (handlers.Create sampleRuntime {} { chairRequest with form := [("title", "Chair")] } {} {}).1.body =
      [{ Data := Interface.string "created" }] :=
  have h := (C5_unparsable_price_stored_as_zero sampleRuntime {}
    { chairRequest with form := [("title", "Chair")] } {} {}).2 (by decide)
  ⟨by decide, by rw [h.1]; decide, by rw [(h.2.2 (by decide) (by decide)).1]; rfl⟩

/-- C6: `models.Delete` returns exactly the error of `Exec`; when `Exec`
succeeds and no row has the id, the rows and the id counter of the table are as
before. `handlers.Delete` then encodes the one envelope with data `deleted` and
empty error, and in general it encodes one envelope whose error is non-empty
only when `Exec` returned an error. -/
theorem C6_delete_absent_id_succeeds (o : Outcomes) (r : Request) (w : ResponseWriter)
    (σ : World) (id : Int) :
    (models.Delete o id σ).1 = o.execErr ∧
    ((∀ a ∈ σ.rows, a.Id ≠ id) → o.execErr = none →
      (models.Delete o id σ).1 = none ∧
      (models.Delete o id σ).2.rows = σ.rows ∧
      (models.Delete o id σ).2.nextId = σ.nextId) ∧
    ((∀ a ∈ σ.rows, a.Id ≠ (strconv.Atoi (r.Vars "id")).1) → o.execErr = none →
      (handlers.Delete o r w σ).1.body =
        w.body ++ [{ Err := "", Data := Interface.string "deleted" }] ∧
      (handlers.Delete o r w σ).2.rows = σ.rows) ∧
    (∃ res : Response, (handlers.Delete o r w σ).1.body = w.body ++ [res] ∧
      (res.Err ≠ "" → o.execErr ≠ none)) := by
  refine ⟨?_, ?_, ?_, ?_⟩
  · simp only [models.Delete, database.Exec]
    cases o.execErr <;> rfl
  · intro hid he
    simp [models.Delete, database.Exec, he]
    exact hid
  · intro hid he
    simp [handlers.Delete, models.Delete, database.Exec, he, encode_body, headerSet_body]
    exact hid
  · simp only [handlers.Delete, models.Delete, database.Exec, encode_body, headerSet_body]
    cases o.execErr <;> simp

/-- C6 at id 7 on the table that holds the one advert of the example. -/
theorem C6_delete_absent_id_succeeds_witness :
    (∀ a ∈ (handlers.Create sampleRuntime {} chairRequest {} {}).2.rows, a.Id ≠ 7) ∧
    (handlers.Delete {} { vars := [("id", "7")] } {}
      (handlers.Create sampleRuntime {} chairRequest {} {}).2).1.body =
      [{ Err := "", Data := Interface.string "deleted" }] ∧
    (handlers.Delete {} { vars := [("id", "7")] } {}
      (handlers.Create sampleRuntime {} chairRequest {} {}).2).2.rows =
      (handlers.Create sampleRuntime {} chairRequest {} {}).2.rows :=
  have h := (C6_delete_absent_id_succeeds {} { vars := [("id", "7")] } {}
    (handlers.Create sampleRuntime {} chairRequest {} {}).2 7).2.2.1 (by decide) (by decide)
  ⟨by decide, h.1, h.2⟩

/-- The value `strconv.Atoi` returns with an error: 0 with a syntax error, the
largest-magnitude `int` of the sign of the input with a range error. -/
theorem Atoi_value_of_error (s : String) :
    ((strconv.Atoi s).2 = some strconv.NumError.ErrSyntax → (strconv.Atoi s).1 = 0) ∧
    ((strconv.Atoi s).2 = some strconv.NumError.ErrRange →
      (strconv.Atoi s).1 =
        if (strconv.bytes s).head? = some 45 then -9223372036854775808
        else 9223372036854775807) := by
  unfold strconv.Atoi
  simp only
  by_cases h1 : 0 < (strconv.bytes s).length ∧ (strconv.bytes s).length < 19
  · rw [if_pos h1]
    split_ifs <;> first
      | simp
      | (split <;> simp)
  · rw [if_neg h1]
    unfold strconv.ParseInt
    simp only [strconv.IntSize]
    split_ifs <;> simp_all

/-- C4, as stated, fails: the id segment `99999999999999999999` fails the
integer parse (it is out of range), and `handlers.Delete` sends the delete with
id 9223372036854775807, not with id 0. -/
theorem C4_out_of_range_id_is_not_zero :
    (strconv.Atoi "99999999999999999999").2 = some strconv.NumError.ErrRange ∧
    (handlers.Delete {} { vars := [("id", "99999999999999999999")] } {} {}).2.stmts =
      [Stmt.delete 9223372036854775807] ∧
    (handlers.Delete {} { vars := [("id", "99999999999999999999")] } {} {}).2.stmts ≠
      [Stmt.delete 0] := by
  decide

/-- C4, amended: when `strconv.Atoi` returns an error for the id segment,
`handlers.Delete` sends the delete with the value returned beside the error:
0 for a syntax error, and for a range error -9223372036854775808 when the
segment starts with a minus sign and 9223372036854775807 otherwise. When the
store reports no error the one envelope is `{"data":"deleted"}`, whatever the
rows of the table. -/
theorem C4_delete_with_unparsable_id (o : Outcomes) (r : Request) (w : ResponseWriter)
    (σ : World) (h : (strconv.Atoi (r.Vars "id")).2 ≠ none) :
    (handlers.Delete o r w σ).2.stmts = σ.stmts ++
      [Stmt.delete
        (if (strconv.Atoi (r.Vars "id")).2 = some strconv.NumError.ErrSyntax then 0
         else if (strconv.bytes (r.Vars "id")).head? = some 45 then -9223372036854775808
         else 9223372036854775807)] ∧
    (o.execErr = none →
      (handlers.Delete o r w σ).1.body =
        w.body ++ [{ Data := Interface.string "deleted" }] ∧
      (handlers.Delete o r w σ).1.body.map Response.members =
        w.body.map Response.members ++ [[("data", Interface.string "deleted")]]) := by
  have hv := Atoi_value_of_error (r.Vars "id")
  constructor
  · have hid : (strconv.Atoi (r.Vars "id")).1 =
        (if (strconv.Atoi (r.Vars "id")).2 = some strconv.NumError.ErrSyntax then 0
         else if (strconv.bytes (r.Vars "id")).head? = some 45 then -9223372036854775808
         else 9223372036854775807) := by
      cases he : (strconv.Atoi (r.Vars "id")).2 with
      | none => exact absurd he h
      | some e =>
        cases e with
        | ErrSyntax => simpa using hv.1 he
        | ErrRange => simpa using hv.2 he
    simp only [handlers.Delete, models.Delete, database.Exec]
    rw [← hid]
    cases o.execErr <;> rfl
  · intro he
    have hb : (handlers.Delete o r w σ).1.body =
        w.body ++ [{ Data := Interface.string "deleted" }] := by
      simp [handlers.Delete, models.Delete, database.Exec, he, encode_body, headerSet_body]
    refine ⟨hb, ?_⟩
    rw [hb]
    simp [Response.members]

/-- C4, amended, at the id segments `abc` (a syntax error) and
`-99999999999999999999` (a range error). -/
theorem C4_delete_with_unparsable_id_witness :
    (strconv.Atoi (Request.Vars { vars := [("id", "abc")] } "id")).2 ≠ none ∧
    (handlers.Delete {} { vars := [("id", "abc")] } {} {}).2.stmts = [Stmt.delete 0] ∧
    (handlers.Delete {} { vars := [("id", "abc")] } {} {}).1.body =
      [{ Data := Interface.string "deleted" }] ∧
    (strconv.Atoi (Request.Vars { vars := [("id", "-99999999999999999999")] } "id")).2 ≠ none ∧
    (handlers.Delete {} { vars := [("id", "-99999999999999999999")] } {} {}).2.stmts =
      [Stmt.delete (-9223372036854775808)] :=
  have h := C4_delete_with_unparsable_id {} { vars := [("id", "abc")] } {} {} (by decide)
  have h2 := C4_delete_with_unparsable_id {} { vars := [("id", "-99999999999999999999")] }
    {} {} (by decide)
  ⟨by decide, by rw [h.1]; decide, by rw [(h.2 (by decide)).1]; rfl, by decide,
    by rw [h2.1]; decide⟩

/-- C8, evaluated where it fails: the upload with random string `123` is
written to `static/images/upload-123.png`, the static route opens
`static/static/images/upload-123.png` for the request path
`/static/images/upload-123.png`, and so serves nothing for it although the
uploaded file exists. -/
theorem C8_static_route_opens_other_file :
    ioutil.tempName "static/images" "upload-*.png" "123" =
      Except.ok "static/images/upload-123.png" ∧
    (handlers.Create sampleRuntime { rnd := "123" } chairRequest {} {}).2.files =
      [("static/images/upload-123.png", "PNG")] ∧
    main.staticRoute "/static/images/upload-123.png" =
      some "static/static/images/upload-123.png" ∧
    main.serveStatic (handlers.Create sampleRuntime { rnd := "123" } chairRequest {} {}).2
      "/static/images/upload-123.png" = none :=
  ⟨rfl, by decide, by decide, by decide⟩

/-! ## Lemmas on listing after creating -/

theorem scanLoop_no_error (rows : List Advert) (i : Nat) (acc : List Advert) :
    models.scanLoop none rows i acc = (acc ++ rows, none) := by
  induction rows generalizing i acc with
  | nil => simp [models.scanLoop]
  | cons row rest ih => simp [models.scanLoop, ih]

theorem models_List_no_error (o : Outcomes) (σ : World)
    (hq : o.queryErr = none) (hs : o.scanErr = none) :
    (models.List o σ).1 = (σ.rows.insertionSort idDesc, none) := by
  simp [models.List, database.Query, hq, hs, scanLoop_no_error]

theorem handlers_List_no_error (rt : Runtime) (o : Outcomes) (w : ResponseWriter) (σ : World)
    (hq : o.queryErr = none) (hs : o.scanErr = none) :
    (handlers.List rt o w σ).1.body =
      w.body ++ [{ Data := Interface.adverts ((σ.rows.insertionSort idDesc).map (listedImage rt)) }] := by
  simp only [handlers.List, models_List_no_error o σ hq hs, encode_body, headerSet_body]
  rfl

theorem handlers_Create_rows (rt : Runtime) (o : Outcomes) (r : Request) (w : ResponseWriter)
    (σ : World) (hex : o.execErr = none) :
    (handlers.Create rt o r w σ).2.rows = σ.rows ++
      [{ Id := σ.nextId, Title := r.FormValue "title", Description := r.FormValue "description",
         Price := if (strconv.ParseFloat rt (r.FormValue "price")).2 = none
           then (strconv.ParseFloat rt (r.FormValue "price")).1 else ⟨0⟩,
         Image := (handlers.getFormFile o r σ).1.1 }] := by
  obtain ⟨hr, hn, -⟩ := getFormFile_table o r σ
  simp only [handlers.Create, models.Create, database.Exec, hex, hr, hn]
  split_ifs <;> rfl

/-- C2: after a create request whose insert succeeds and whose price string
parses to `p`, a list request whose query succeeds encodes one envelope with no
error whose data holds an advert with the title, the description and the price
`p` of the request and an image value that starts with the value of
`IMAGE_PATH`. This holds for every outcome of the upload, so in particular for
the valid requests, whose upload succeeds. -/
theorem C2_created_advert_is_listed (rt : Runtime) (o1 o2 : Outcomes) (r : Request)
    (w1 w2 : ResponseWriter) (σ : World) (p : Float64)
    (hex : o1.execErr = none)
    (hp : strconv.ParseFloat rt (r.FormValue "price") = (p, none))
    (hq : o2.queryErr = none) (hs : o2.scanErr = none) :
    ∃ l : List Advert,
      (handlers.List rt o2 w2 (handlers.Create rt o1 r w1 σ).2).1.body =
        w2.body ++ [{ Err := "", Data := Interface.adverts l }] ∧
      ∃ a ∈ l, a.Title = r.FormValue "title" ∧ a.Description = r.FormValue "description" ∧
        a.Price = p ∧ strings.HasPrefix a.Image (rt.Getenv "IMAGE_PATH") = true := by
  refine ⟨_, handlers_List_no_error rt o2 w2 _ hq hs, ?_⟩
  rw [handlers_Create_rows rt o1 r w1 σ hex]
  refine ⟨listedImage rt (Advert.mk σ.nextId (r.FormValue "title")
    (r.FormValue "description") p (handlers.getFormFile o1 r σ).1.1), ?_, rfl, rfl, rfl, ?_⟩
  · apply List.mem_map_of_mem
    rw [(List.perm_insertionSort idDesc _).mem_iff]
    simp [hp]
  · simp [strings.HasPrefix, listedImage, List.isPrefixOf_iff_prefix, String.data_append]

/-- C2 at the example request on the empty table. -/
theorem C2_created_advert_is_listed_witness :
    ∃ l : List Advert,
      (handlers.List sampleRuntime {} {}
        (handlers.Create sampleRuntime {} chairRequest {} {}).2).1.body =
        [{ Err := "", Data := Interface.adverts l }] ∧
      ∃ a ∈ l, a.Title = "Chair" ∧ a.Description = "Wooden" ∧
        a.Price = ⟨0x4048FEB851EB851F⟩ ∧
        strings.HasPrefix a.Image "http://localhost:4040" = true :=
  C2_created_advert_is_listed sampleRuntime {} {} chairRequest {} {} {} ⟨0x4048FEB851EB851F⟩
    (by decide) (by decide) (by decide) (by decide)

/-! ## Lemmas on the name of the uploaded file -/

theorem splitSlash_no_slash (l : List Char) (h : '/' ∉ l) : path.splitSlash l = [l] := by
  induction l with
  | nil => rfl
  | cons c cs ih =>
    have hc : c ≠ '/' := fun e => h (by simp [e])
    have hcs : '/' ∉ cs := fun e => h (by simp [e])
    simp [path.splitSlash, hc, ih hcs]

theorem splitSlash_append (a b : List Char) (h : '/' ∉ a) :
    path.splitSlash (a ++ '/' :: b) = a :: path.splitSlash b := by
  induction a with
  | nil => simp [path.splitSlash]
  | cons c cs ih =>
    have hc : c ≠ '/' := fun e => h (by simp [e])
    have hcs : '/' ∉ cs := fun e => h (by simp [e])
    simp [path.splitSlash, hc, ih hcs]

theorem tempName_upload (rnd : String) (h : '/' ∉ rnd.data) :
    ioutil.tempName "static/images" "upload-*.png" rnd =
      Except.ok ("static/images/upload-" ++ rnd ++ ".png") := by
  have hstar : ioutil.splitLastStar "upload-*.png".data =
      some ("upload-".data, ".png".data) := by decide
  have hsl : '/' ∉ "upload-*.png".data := by decide
  have hne : ((⟨"upload-".data⟩ : String) ++ rnd ++ ⟨".png".data⟩) ≠ "" := by
    intro e
    have := congrArg String.data e
    simp [String.data_append] at this
  have htail : '/' ∉ "upload-".data ++ rnd.data ++ ".png".data := by
    simp only [List.mem_append, not_or]
    exact ⟨⟨by decide, h⟩, by decide⟩
  have hsplit : path.splitSlash ("static".data ++ '/' :: ("images".data ++ '/' ::
      ("upload-".data ++ rnd.data ++ ".png".data))) =
      ["static".data, "images".data, "upload-".data ++ rnd.data ++ ".png".data] := by
    rw [splitSlash_append _ _ (by decide), splitSlash_append _ _ (by decide),
      splitSlash_no_slash _ htail]
  have hdata : ("static/images" ++ "/" ++
      ((⟨"upload-".data⟩ : String) ++ rnd ++ ⟨".png".data⟩)).data =
      "static".data ++ '/' :: ("images".data ++ '/' ::
        ("upload-".data ++ rnd.data ++ ".png".data)) := by
    simp only [String.data_append]
    rfl
  have hclean : path.Clean ("static/images" ++ "/" ++
      ((⟨"upload-".data⟩ : String) ++ rnd ++ ⟨".png".data⟩)) =
      "static/images/upload-" ++ rnd ++ ".png" := by
    have hP : ("static/images" ++ "/" ++
        ((⟨"upload-".data⟩ : String) ++ rnd ++ ⟨".png".data⟩)) ≠ "" := by
      intro e
      have := congrArg String.data e
      rw [hdata] at this
      simp at this
    have hX1 : "upload-".data ++ rnd.data ++ ".png".data ≠ [] := by simp
    have hX2 : "upload-".data ++ rnd.data ++ ".png".data ≠ ['.'] := by simp
    have hX3 : "upload-".data ++ rnd.data ++ ".png".data ≠ ['.', '.'] := by simp
    have hel : path.cleanElems false
        ["static".data, "images".data, "upload-".data ++ rnd.data ++ ".png".data] [] =
        ["static".data, "images".data, "upload-".data ++ rnd.data ++ ".png".data] := by
      simp [path.cleanElems]
    unfold path.Clean
    rw [if_neg hP]
    simp only [hdata, hsplit]
    have hroot : (decide (("static".data ++ '/' :: ("images".data ++ '/' ::
        ("upload-".data ++ rnd.data ++ ".png".data))).head? = some '/')) = false := by
      simp
    rw [hroot, hel]
    apply String.ext
    simp [List.intercalate, String.data_append]
  unfold ioutil.tempName
  rw [if_neg hsl, hstar]
  simp only [path.Join]
  have hfilter : List.filter (fun e => decide (e ≠ ""))
      ["static/images", (⟨"upload-".data⟩ : String) ++ rnd ++ ⟨".png".data⟩] =
      ["static/images", (⟨"upload-".data⟩ : String) ++ rnd ++ ⟨".png".data⟩] := by
    simp [List.filter, hne]
  rw [hfilter]
  simp only [String.intercalate, String.intercalate.go]
  rw [if_neg (by simp), hclean]

theorem getFormFile_name (o : Outcomes) (r : Request) (σ : World)
    (h : (handlers.getFormFile o r σ).1.2 = none) :
    ioutil.tempName "static/images" "upload-*.png" o.rnd =
      Except.ok (handlers.getFormFile o r σ).1.1 := by
  revert h
  unfold handlers.getFormFile ioutil.TempFile
  cases r.FormFile "ad_image" <;> cases o.tempFileErr <;>
    cases ioutil.tempName "static/images" "upload-*.png" o.rnd <;>
    cases o.readErr <;> cases o.writeErr <;> simp

/-- C7, as stated, fails: for the create request of the example with random
string `123` the row stores `static/images/upload-123.png`, which has a
directory component, and the listed image value
`http://localhost:4040/static/images/upload-123.png` is not `IMAGE_PATH`, a
slash and a name without directory component. -/
theorem C7_listed_image_is_not_bare_file_name :
    (handlers.Create sampleRuntime { rnd := "123" } chairRequest {} {}).2.rows.map
      (fun a => a.Image) = ["static/images/upload-123.png"] ∧
    '/' ∈ "static/images/upload-123.png".data ∧
    (handlers.List sampleRuntime {} {}
      (handlers.Create sampleRuntime { rnd := "123" } chairRequest {} {}).2).1.body =
      [{ Data := Interface.adverts
          [{ Id := 1, Title := "Chair", Description := "Wooden",
             Price := ⟨0x4048FEB851EB851F⟩,
             Image := "http://localhost:4040/static/images/upload-123.png" }] }] ∧
    ¬ ∃ name : String, '/' ∉ name.data ∧
      "http://localhost:4040/static/images/upload-123.png" =
        sampleRuntime.Getenv "IMAGE_PATH" ++ "/" ++ name := by
  refine ⟨by decide, by decide, by decide, ?_⟩
  rintro ⟨name, hname, heq⟩
  have hd := congrArg (fun s : String => s.data.drop 22) heq
  have hI : sampleRuntime.Getenv "IMAGE_PATH" = "http://localhost:4040" := by decide
  simp only [hI, String.data_append] at hd
  have hn : name.data = "static/images/upload-123.png".data := by
    simpa using hd.symm
  apply hname
  rw [hn]
  decide

/-- C7, amended: for a create request whose upload succeeds (the random string
of `TempFile` holding no slash) and whose insert succeeds, the stored image
value is the name `TempFile` returns, `static/images/upload-XXXX.png`: the
directory `static/images`, then the file name with prefix `upload-` and suffix
`.png`. A list request whose query succeeds returns for the created advert the
value of `IMAGE_PATH`, a slash, and that path. -/
theorem C7_listed_image_is_base_and_file_path (rt : Runtime) (o1 o2 : Outcomes)
    (r : Request) (w1 w2 : ResponseWriter) (σ : World)
    (hup : (handlers.getFormFile o1 r σ).1.2 = none)
    (hrnd : '/' ∉ o1.rnd.data)
    (hex : o1.execErr = none)
    (hq : o2.queryErr = none) (hs : o2.scanErr = none) :
    (∃ a ∈ (handlers.Create rt o1 r w1 σ).2.rows, a.Id = σ.nextId ∧
      a.Image = "static/images/upload-" ++ o1.rnd ++ ".png") ∧
    ∃ l : List Advert,
      (handlers.List rt o2 w2 (handlers.Create rt o1 r w1 σ).2).1.body =
        w2.body ++ [{ Err := "", Data := Interface.adverts l }] ∧
      ∃ a ∈ l, a.Id = σ.nextId ∧ a.Title = r.FormValue "title" ∧
        a.Image = rt.Getenv "IMAGE_PATH" ++ "/" ++
          ("static/images/upload-" ++ o1.rnd ++ ".png") := by
  have hname : (handlers.getFormFile o1 r σ).1.1 =
      "static/images/upload-" ++ o1.rnd ++ ".png" := by
    have h1 := getFormFile_name o1 r σ hup
    rw [tempName_upload o1.rnd hrnd] at h1
    exact (Except.ok.inj h1).symm
  have hrows := handlers_Create_rows rt o1 r w1 σ hex
  rw [hname] at hrows
  constructor
  · rw [hrows]
    exact ⟨_, List.mem_append_right _ (List.mem_singleton_self _), rfl, rfl⟩
  · refine ⟨_, handlers_List_no_error rt o2 w2 _ hq hs, ?_⟩
    rw [hrows]
    refine ⟨listedImage rt (Advert.mk σ.nextId (r.FormValue "title")
      (r.FormValue "description")
      (if (strconv.ParseFloat rt (r.FormValue "price")).2 = none
        then (strconv.ParseFloat rt (r.FormValue "price")).1 else ⟨0⟩)
      ("static/images/upload-" ++ o1.rnd ++ ".png")), ?_, rfl, rfl, rfl⟩
    apply List.mem_map_of_mem
    rw [(List.perm_insertionSort idDesc _).mem_iff]
    simp

/-- C7, amended, at the example request with random string `123`. -/
theorem C7_listed_image_is_base_and_file_path_witness :
    (handlers.getFormFile { rnd := "123" } chairRequest {}).1.2 = none ∧
    ∃ l : List Advert,
      (handlers.List sampleRuntime {} {}
        (handlers.Create sampleRuntime { rnd := "123" } chairRequest {} {}).2).1.body =
        [{ Err := "", Data := Interface.adverts l }] ∧
      ∃ a ∈ l, a.Id = 1 ∧ a.Title = "Chair" ∧
        a.Image = "http://localhost:4040" ++ "/" ++
          ("static/images/upload-" ++ "123" ++ ".png") :=
  ⟨by decide, (C7_listed_image_is_base_and_file_path sampleRuntime { rnd := "123" } {}
    chairRequest {} {} {} (by decide) (by decide) (by decide) (by decide) (by decide)).2⟩

/-! ## Lemmas on the order of the listing -/

theorem assignIds_ids (as : List Advert) (n : Int) :
    ∀ b ∈ assignIds n as, n ≤ b.Id := by
  induction as generalizing n with
  | nil => simp [assignIds]
  | cons a as ih =>
    intro b hb
    simp only [assignIds, List.mem_cons] at hb
    rcases hb with rfl | hb
    · exact le_refl _
    · have := ih (n + 1) b hb
      omega

theorem assignIds_ascending (as : List Advert) (n : Int) :
    (assignIds n as).Pairwise (fun a b => a.Id < b.Id) := by
  induction as generalizing n with
  | nil => simp [assignIds]
  | cons a as ih =>
    simp only [assignIds, List.pairwise_cons]
    refine ⟨?_, ih (n + 1)⟩
    intro b hb
    have := assignIds_ids as (n + 1) b hb
    show n < b.Id
    omega

theorem orderedInsert_smallest (a : Advert) (l : List Advert)
    (h : ∀ b ∈ l, a.Id < b.Id) : l.orderedInsert idDesc a = l ++ [a] := by
  induction l with
  | nil => rfl
  | cons b l ih =>
    have hb : ¬ idDesc a b := by
      have := h b (by simp)
      unfold idDesc
      omega
    have hl : ∀ c ∈ l, a.Id < c.Id := fun c hc => h c (by simp [hc])
    simp [List.orderedInsert, hb, ih hl]

theorem insertionSort_assignIds (as : List Advert) (n : Int) :
    (assignIds n as).insertionSort idDesc = (assignIds n as).reverse := by
  induction as generalizing n with
  | nil => rfl
  | cons a as ih =>
    simp only [assignIds, List.insertionSort, ih (n + 1), List.reverse_cons]
    apply orderedInsert_smallest
    intro b hb
    have := assignIds_ids as (n + 1) b (List.mem_reverse.mp hb)
    show n < b.Id
    omega

theorem createAll_rows (cs : List (Outcomes × Advert)) (σ : World)
    (hok : ∀ c ∈ cs, c.1.execErr = none) :
    (createAll cs σ).rows = σ.rows ++ assignIds σ.nextId (cs.map Prod.snd) := by
  induction cs generalizing σ with
  | nil => simp [createAll, assignIds]
  | cons c cs ih =>
    have hc : c.1.execErr = none := hok c (by simp)
    have hcs : ∀ d ∈ cs, d.1.execErr = none := fun d hd => hok d (by simp [hd])
    simp only [createAll, List.map_cons, assignIds]
    rw [ih _ hcs]
    simp [models.Create, database.Exec, hc]

/-- C3: after a sequence of successful calls of `models.Create` on an empty
table, `models.List` (its query succeeding) returns without error as many
adverts as the table has rows, in strictly descending order of id: the adverts
created, with their consecutive ids, latest first. The data of the envelope of
`handlers.List` is that list with the image values rewritten. Creating A, B, C
thus lists C, B, A. -/
theorem C3_list_is_latest_first (rt : Runtime) (o : Outcomes) (w : ResponseWriter)
    (cs : List (Outcomes × Advert)) (σ : World)
    (hempty : σ.rows = [])
    (hok : ∀ c ∈ cs, c.1.execErr = none)
    (hq : o.queryErr = none) (hs : o.scanErr = none) :
    (models.List o (createAll cs σ)).1.2 = none ∧
    (models.List o (createAll cs σ)).1.1.length = (createAll cs σ).rows.length ∧
    (models.List o (createAll cs σ)).1.1.Pairwise (fun a b => a.Id > b.Id) ∧
    (models.List o (createAll cs σ)).1.1 = (assignIds σ.nextId (cs.map Prod.snd)).reverse ∧
    (handlers.List rt o w (createAll cs σ)).1.body = w.body ++
      [{ Err := "", Data := Interface.adverts
          ((models.List o (createAll cs σ)).1.1.map (listedImage rt)) }] := by
  have hrows : (createAll cs σ).rows = assignIds σ.nextId (cs.map Prod.snd) := by
    rw [createAll_rows cs σ hok, hempty, List.nil_append]
  have hl := models_List_no_error o (createAll cs σ) hq hs
  rw [hrows, insertionSort_assignIds] at hl
  have hb := handlers_List_no_error rt o w (createAll cs σ) hq hs
  rw [hrows, insertionSort_assignIds] at hb
  rw [hl, hrows]
  refine ⟨rfl, by simp, ?_, rfl, hb⟩
  rw [List.pairwise_reverse]
  exact assignIds_ascending _ _

/-- C3 at the creates A, B, C on the empty table: the list is C, B, A. -/
theorem C3_list_is_latest_first_witness :
    (models.List {}
      (createAll [({}, { Title := "A" }), ({}, { Title := "B" }), ({}, { Title := "C" })]
        {})).1.1 =
      [{ Id := 3, Title := "C" }, { Id := 2, Title := "B" }, { Id := 1, Title := "A" }] ∧
    (models.List {}
      (createAll [({}, { Title := "A" }), ({}, { Title := "B" }), ({}, { Title := "C" })]
        {})).1.1.Pairwise (fun a b => a.Id > b.Id) :=
  have h := C3_list_is_latest_first sampleRuntime {} {}
    [({}, { Title := "A" }), ({}, { Title := "B" }), ({}, { Title := "C" })] {}
    rfl (by decide) (by decide) (by decide)
  ⟨by rw [h.2.2.2.1]; decide, h.2.2.1⟩
